import Mathlib

/-!
# ClipDash signup controller (`public/js/app.js`)

A shallow embedding of the validation-and-submission flow of the page
script: `extractChannelId`, `isValidWebhook`, the `submit` listener of
`connectForm` and `showSuccess`.

JavaScript strings are modelled as lists of characters (`JsString`).  The
script only inspects ASCII characters, so the difference between UTF-16 code
units and Unicode scalar values is not observable by it.
-/

namespace ClipDash

/-- A JavaScript string, as the list of its characters. -/
abbrev JsString := List Char

/-! ## Regular expression `/(UC[\w-]{22})/` -/

/-- The class `\w` of a JavaScript regular expression without the `i` and `u`
flags: `[A-Za-z0-9_]`. -/
def isWordChar (c : Char) : Bool :=
  (65 ≤ c.toNat && c.toNat ≤ 90) || (97 ≤ c.toNat && c.toNat ≤ 122) ||
    (48 ≤ c.toNat && c.toNat ≤ 57) || c.toNat == 95

/-- The bracket class `[\w-]`: a word character or a literal hyphen. -/
def isWordOrHyphen (c : Char) : Bool :=
  isWordChar c || c.toNat == 45

/-- A regex atom: a character class repeated an exact number of times
(`U`, `C`, `[\w-]{22}`). -/
structure Atom where
  accepts : Char → Bool
  count : Nat

/-- Match exactly `n` characters of class `p` at the head of `s`; returns the
consumed text and the remaining input. -/
def matchClass (p : Char → Bool) : Nat → JsString → Option (JsString × JsString)
  | 0, s => some ([], s)
  | _ + 1, [] => none
  | n + 1, c :: s =>
    if p c then
      match matchClass p n s with
      | some (m, r) => some (c :: m, r)
      | none => none
    else none

/-- Match a sequence of atoms anchored at the head of `s`; returns the matched
text. -/
def matchSeq : List Atom → JsString → Option JsString
  | [], _ => some []
  | a :: rest, s =>
    match matchClass a.accepts a.count s with
    | none => none
    | some (m, r) =>
      match matchSeq rest r with
      | none => none
      | some m' => some (m ++ m')

/-- The unanchored search of `String.prototype.match` for a non-global regex:
try every start position from left to right, return the first match. -/
def regexExec (re : List Atom) : JsString → Option JsString
  | [] => matchSeq re []
  | c :: s =>
    match matchSeq re (c :: s) with
    | some m => some m
    | none => regexExec re s

/-- The pattern `/(UC[\w-]{22})/`.  Its single capture group spans the whole
pattern, so `match[1]` is the matched text. -/
def channelIdRegex : List Atom :=
  [⟨fun c => c == 'U', 1⟩, ⟨fun c => c == 'C', 1⟩, ⟨isWordOrHyphen, 22⟩]

/-! ## Helper functions of the script -/

/-- Function `extractChannelId(input)`: `null` for a falsy input (`null` or the
empty string), otherwise group 1 of the first regex match, otherwise the input
itself. -/
def extractChannelId (input : Option JsString) : Option JsString :=
  match input with
  | none => none
  | some [] => none
  | some (c :: s) =>
    match regexExec channelIdRegex (c :: s) with
    | some m => some m
    | none => some (c :: s)

/-- Method `String.prototype.startsWith(search)`. -/
def startsWith (s search : JsString) : Bool :=
  match search, s with
  | [], _ => true
  | _ :: _, [] => false
  | a :: search', b :: s' => a == b && startsWith s' search'

/-- Method `String.prototype.includes(search)`: is there a position of `s` at
which `search` starts. -/
def includes (s search : JsString) : Bool :=
  match s with
  | [] => startsWith [] search
  | c :: s' => startsWith (c :: s') search || includes s' search

/-- The literal of `isValidWebhook`. -/
def webhookMarker : JsString := "discord.com/api/webhooks/".toList

/-- Function `isValidWebhook(url)`. -/
def isValidWebhook (url : JsString) : Bool :=
  includes url webhookMarker

/-! ## JavaScript values met by the submit handler -/

/-- A value produced by `JSON.parse`.  A number is kept as the bit pattern of
its IEEE-754 double. -/
inductive JsValue where
  | null
  | bool (b : Bool)
  | number (bits : Nat)
  | string (s : JsString)
  | array (items : List JsValue)
  | object (props : List (JsString × JsValue))

/-- Truthiness (`ToBoolean`) of a value: `null`, `false`, `±0`, `NaN` and the
empty string are falsy. -/
def JsValue.truthy : JsValue → Bool
  | .null => false
  | .bool b => b
  | .number bits =>
    !(bits % 2 ^ 63 == 0 || ((bits / 2 ^ 52) % 2 ^ 11 == 2047 && bits % 2 ^ 52 != 0))
  | .string s => !s.isEmpty
  | .array _ => true
  | .object _ => true

/-- What the JavaScript engine contributes that the script does not fix. -/
structure Engine where
  /-- Operation `ToString` on a value that is not a string. -/
  toStr : JsValue → JsString
  /-- Message of the `TypeError` raised by reading a property of `null`. -/
  nullReadMsg : JsString

/-- Operation `ToString`, used by `new Error(x)` to build `message`. -/
def Engine.toJsString (eng : Engine) : JsValue → JsString
  | .string s => s
  | v => eng.toStr v

/-- The property read `data.detail`: throws on `null`, is `undefined` (`none`)
when the property is absent. -/
def getDetail (eng : Engine) : JsValue → Except JsString (Option JsValue)
  | .null => .error eng.nullReadMsg
  | .object props => .ok (props.lookup "detail".toList)
  | _ => .ok none

/-- The expression `data.detail || 'Connection failed.'` followed by
`new Error(...).message`. -/
def remoteErrorMessage (eng : Engine) (detail : Option JsValue) : JsString :=
  match detail with
  | none => "Connection failed.".toList
  | some v => if v.truthy then eng.toJsString v else "Connection failed.".toList

/-! ## JSON.stringify of the request body -/

/-- One lower-case hexadecimal digit. -/
def hexDigit (n : Nat) : Char :=
  if n < 10 then Char.ofNat (48 + n) else Char.ofNat (87 + n)

/-- Escape of one character inside a JSON string (`QuoteJSONString`).  The
case of a lone surrogate does not arise: a `Char` is never a surrogate. -/
def jsonEscapeChar (c : Char) : JsString :=
  let n := c.toNat
  if n == 8 then [Char.ofNat 92, Char.ofNat 98]
  else if n == 9 then [Char.ofNat 92, Char.ofNat 116]
  else if n == 10 then [Char.ofNat 92, Char.ofNat 110]
  else if n == 12 then [Char.ofNat 92, Char.ofNat 102]
  else if n == 13 then [Char.ofNat 92, Char.ofNat 114]
  else if n == 34 then [Char.ofNat 92, Char.ofNat 34]
  else if n == 92 then [Char.ofNat 92, Char.ofNat 92]
  else if n < 32 then
    [Char.ofNat 92, Char.ofNat 117, Char.ofNat 48, Char.ofNat 48, hexDigit (n / 16), hexDigit (n % 16)]
  else [c]

/-- A JSON string literal. -/
def jsonQuote (s : JsString) : JsString :=
  [Char.ofNat 34] ++ s.flatMap jsonEscapeChar ++ [Char.ofNat 34]

/-- The members `"k":"v"` of an object whose values are strings, comma separated,
in property order. -/
def jsonMembers : List (JsString × JsString) → JsString
  | [] => []
  | [(k, v)] => jsonQuote k ++ [Char.ofNat 58] ++ jsonQuote v
  | (k, v) :: p :: rest =>
    jsonQuote k ++ [Char.ofNat 58] ++ jsonQuote v ++ [Char.ofNat 44] ++ jsonMembers (p :: rest)

/-- Function `JSON.stringify` on an object whose property values are strings. -/
def jsonStringify (props : List (JsString × JsString)) : JsString :=
  [Char.ofNat 123] ++ jsonMembers props ++ [Char.ofNat 125]

/-! ## The submit handler -/

/-- The argument of `fetch`. -/
structure Request where
  url : JsString
  method : JsString
  headers : List (JsString × JsString)
  body : JsString
deriving DecidableEq

/-- Outcome of `await response.json()`. -/
inductive BodyOutcome where
  | throws (msg : JsString)
  | parsed (data : JsValue)

/-- Outcome of `await fetch(...)`: a rejection, or a response with its HTTP
status and what parsing its body gives. -/
inductive FetchOutcome where
  | rejected (msg : JsString)
  | responded (status : Nat) (body : BodyOutcome)

/-- Property `response.ok`: the status is in the range 200-299. -/
def responseOk (status : Nat) : Bool :=
  200 ≤ status && status ≤ 299

/-- An observable action of the handler, in program order. -/
inductive Effect where
  | preventDefault
  | setBtnLabel (html : JsString)
  | setBtnDisabled (b : Bool)
  | fetch (req : Request)
  | alert (msg : JsString)
  | setFormDisplay (v : JsString)
  | removeSuccessHidden
  | setCommandText (t : JsString)
deriving DecidableEq

/-- The part of the page the handler reads and writes. -/
structure Ui where
  btnLabel : JsString
  btnDisabled : Bool
  formDisplay : JsString
  successHidden : Bool
  commandText : JsString
deriving DecidableEq

/-- Effect of one action on the page. -/
def Ui.apply (ui : Ui) : Effect → Ui
  | .preventDefault => ui
  | .setBtnLabel html => { ui with btnLabel := html }
  | .setBtnDisabled b => { ui with btnDisabled := b }
  | .fetch _ => ui
  | .alert _ => ui
  | .setFormDisplay v => { ui with formDisplay := v }
  | .removeSuccessHidden => { ui with successHidden := false }
  | .setCommandText t => { ui with commandText := t }

/-- The page after a sequence of actions. -/
def Ui.run (ui : Ui) (trace : List Effect) : Ui :=
  trace.foldl Ui.apply ui

/-- The requests issued by a trace. -/
def requestsOf : List Effect → List Request
  | [] => []
  | .fetch req :: t => req :: requestsOf t
  | _ :: t => requestsOf t

/-- The alert messages shown by a trace. -/
def alertsOf : List Effect → List JsString
  | [] => []
  | .alert msg :: t => msg :: alertsOf t
  | _ :: t => alertsOf t

/-- The loading label of the submit control. -/
def loadingLabel : JsString :=
  "<i class=\"fas fa-spinner fa-spin\"></i> Connecting...".toList

/-- Message of the channel validation error. -/
def invalidChannelMsg : JsString :=
  "Invalid YouTube Channel ID. It must start with \"UC\".".toList

/-- Message of the webhook validation error. -/
def invalidWebhookMsg : JsString := "Invalid Discord Webhook URL.".toList

/-- The template literal of `showSuccess`. -/
def commandFor (channelId : JsString) : JsString :=
  "$(urlfetch https://clipdash.in/webhook/clip?channel_id=".toList ++ channelId ++
    "&user=$(user)&message=$(querystring))".toList

/-- Function `showSuccess(channelId)`. -/
def showSuccess (channelId : JsString) : List Effect :=
  [.setFormDisplay "none".toList, .removeSuccessHidden, .setCommandText (commandFor channelId)]

/-- The request built by the handler. -/
def signupRequest (email channelId webhookUrl : JsString) : Request :=
  { url := "/webhook/signup".toList
    method := "POST".toList
    headers := [("Content-Type".toList, "application/json".toList)]
    body := jsonStringify
      [("email".toList, email),
       ("youtubeChannelUrl".toList, "https://www.youtube.com/channel/".toList ++ channelId),
       ("discordWebhookUrl".toList, webhookUrl)] }

/-- The `try` block of the handler: the actions performed and the message of
the error thrown, if any. -/
def tryBlock (eng : Engine) (net : Request → FetchOutcome)
    (email channelInput webhookUrl : JsString) : List Effect × Option JsString :=
  match extractChannelId (some channelInput) with
  | none => ([], some invalidChannelMsg)
  | some channelId =>
    if channelId.isEmpty || !startsWith channelId "UC".toList then
      ([], some invalidChannelMsg)
    else if !isValidWebhook webhookUrl then
      ([], some invalidWebhookMsg)
    else
      let req := signupRequest email channelId webhookUrl
      match net req with
      | .rejected msg => ([.fetch req], some msg)
      | .responded _ (.throws msg) => ([.fetch req], some msg)
      | .responded status (.parsed data) =>
        if !responseOk status then
          match getDetail eng data with
          | .error msg => ([.fetch req], some msg)
          | .ok detail => ([.fetch req], some (remoteErrorMessage eng detail))
        else
          (.fetch req :: showSuccess channelId, none)

/-- The `submit` listener of `connectForm`, run on page `ui` with the three
field values: loading state, `try` block, `catch` (alert), `finally`. -/
def submitHandler (eng : Engine) (net : Request → FetchOutcome) (ui : Ui)
    (email channelInput webhookUrl : JsString) : List Effect :=
  let originalBtnText := ui.btnLabel
  [.preventDefault, .setBtnLabel loadingLabel, .setBtnDisabled true] ++
    (match tryBlock eng net email channelInput webhookUrl with
     | (effects, none) => effects
     | (effects, some msg) => effects ++ [.alert msg]) ++
    [.setBtnLabel originalBtnText, .setBtnDisabled false]

/-! ## Concrete data used by the examples -/

/-- A page in its initial state. -/
def page0 : Ui :=
  { btnLabel := "Connect".toList, btnDisabled := false, formDisplay := "block".toList,
    successHidden := true, commandText := [] }

/-- An engine description with sample messages. -/
def engine0 : Engine :=
  { toStr := fun _ => "[object Object]".toList
    nullReadMsg := "data is null".toList }

/-! ## Predicates of the specification -/

/-- A character the specification allows after `UC`: "letters, digits,
underscore, hyphen" (ASCII). -/
def IsIdChar (c : Char) : Prop :=
  c.isAlpha = true ∨ c.isDigit = true ∨ c = '_' ∨ c = '-'

instance (c : Char) : Decidable (IsIdChar c) := by
  unfold IsIdChar; infer_instance

/-- The specification's ChannelId: `UC` followed by 22 word-or-hyphen characters,
24 characters in total. -/
def IsChannelId (q : JsString) : Prop :=
  q.take 2 = ['U', 'C'] ∧ q.length = 24 ∧ ∀ c ∈ q.drop 2, IsIdChar c

instance (q : JsString) : Decidable (IsChannelId q) := by
  unfold IsChannelId; infer_instance

/-- The input contains a ChannelId as a contiguous substring. -/
def ContainsChannelId (s : JsString) : Prop :=
  ∃ q, IsChannelId q ∧ q <:+: s

/-! ## Lemmas on the regular expression -/

theorem isWordOrHyphen_iff (c : Char) : isWordOrHyphen c = true ↔ IsIdChar c := by
  have h95 : c = '_' ↔ c.toNat = 95 := by
    constructor
    · rintro rfl; rfl
    · intro h; apply Char.ext; apply UInt32.ext; exact h
  have h45 : c = '-' ↔ c.toNat = 45 := by
    constructor
    · rintro rfl; rfl
    · intro h; apply Char.ext; apply UInt32.ext; exact h
  simp only [isWordOrHyphen, isWordChar, IsIdChar, Char.isAlpha, Char.isUpper, Char.isLower,
    Char.isDigit, h95, h45, Bool.or_eq_true, Bool.and_eq_true, decide_eq_true_eq, beq_iff_eq,
    ge_iff_le, UInt32.le_def, Char.toNat, UInt32.toNat]
  simp only [BitVec.le_def]
  have e1 : (UInt32.toBitVec 65).toNat = 65 := rfl
  have e2 : (UInt32.toBitVec 90).toNat = 90 := rfl
  have e3 : (UInt32.toBitVec 97).toNat = 97 := rfl
  have e4 : (UInt32.toBitVec 122).toNat = 122 := rfl
  have e5 : (UInt32.toBitVec 48).toNat = 48 := rfl
  have e6 : (UInt32.toBitVec 57).toNat = 57 := rfl
  rw [e1, e2, e3, e4, e5, e6]
  omega

theorem matchClass_eq_take (p : Char → Bool) (n : Nat) (s : JsString) :
    matchClass p n s =
      if n ≤ s.length ∧ (s.take n).all p = true then some (s.take n, s.drop n) else none := by
  induction n generalizing s with
  | zero => simp [matchClass]
  | succ n ih =>
    cases s with
    | nil => simp [matchClass]
    | cons c s =>
      simp only [matchClass, ih s, List.length_cons, Nat.add_le_add_iff_right, List.take_succ_cons,
        List.all_cons, Bool.and_eq_true, List.drop_succ_cons]
      by_cases hc : p c = true
      · simp only [hc, if_true, true_and]
        split_ifs <;> rfl
      · simp [hc]

theorem matchClass_eq_some (p : Char → Bool) (n : Nat) (s m r : JsString) :
    matchClass p n s = some (m, r) ↔ s = m ++ r ∧ m.length = n ∧ ∀ c ∈ m, p c = true := by
  rw [matchClass_eq_take]
  constructor
  · intro h
    split at h
    · rename_i hn
      simp only [Option.some.injEq, Prod.mk.injEq] at h
      obtain ⟨rfl, rfl⟩ := h
      refine ⟨(List.take_append_drop n s).symm, by simp [hn.1], ?_⟩
      simpa using hn.2
    · cases h
  · rintro ⟨rfl, rfl, hall⟩
    have : (List.take m.length (m ++ r)).all p = true := by simpa using hall
    rw [if_pos ⟨by simp, this⟩]
    simp

theorem matchSeq_cons_eq_some (a : Atom) (rest : List Atom) (s m : JsString) :
    matchSeq (a :: rest) s = some m ↔
      ∃ m1 r1 m2, matchClass a.accepts a.count s = some (m1, r1) ∧
        matchSeq rest r1 = some m2 ∧ m = m1 ++ m2 := by
  simp only [matchSeq]
  cases h1 : matchClass a.accepts a.count s with
  | none => simp
  | some mr =>
    obtain ⟨m1, r1⟩ := mr
    cases h2 : matchSeq rest r1 with
    | none => simp [h2]
    | some m2 =>
      simp only [h2, Option.some.injEq, Prod.mk.injEq]
      constructor
      · rintro rfl; exact ⟨m1, r1, m2, ⟨rfl, rfl⟩, h2, rfl⟩
      · rintro ⟨ma, ra, mb, ⟨rfl, rfl⟩, h, rfl⟩
        rw [h2] at h
        cases h
        rfl

theorem matchSeq_nil (s : JsString) : matchSeq [] s = some [] := by
  cases s <;> rfl

theorem length_one_all (p : Char → Bool) (m : JsString) (hl : m.length = 1)
    (h : ∀ c ∈ m, p c = true) : ∃ c, m = [c] ∧ p c = true := by
  match m, hl with
  | [c], _ => exact ⟨c, rfl, h c (List.mem_singleton.mpr rfl)⟩

theorem matchSeq_channelIdRegex (s m : JsString) :
    matchSeq channelIdRegex s = some m ↔ IsChannelId m ∧ m <+: s := by
  simp only [channelIdRegex, matchSeq_cons_eq_some, matchClass_eq_some, matchSeq_nil,
    Option.some.injEq]
  constructor
  · rintro ⟨m1, r1, ma, ⟨rfl, hl1, h1⟩, ⟨m2, r2, mb, ⟨rfl, hl2, h2⟩,
      ⟨m3, r3, mc, ⟨rfl, hl3, h3⟩, rfl, rfl⟩, rfl⟩, rfl⟩
    obtain ⟨a, rfl, ha⟩ := length_one_all _ m1 hl1 h1
    obtain ⟨b, rfl, hb⟩ := length_one_all _ m2 hl2 h2
    simp only [beq_iff_eq] at ha hb
    subst ha hb
    refine ⟨⟨by simp, by simp [hl3], ?_⟩, ⟨r3, by simp⟩⟩
    intro c hc
    simp only [List.singleton_append, List.append_nil, List.drop_succ_cons, List.drop_zero] at hc
    exact (isWordOrHyphen_iff c).mp (h3 c hc)
  · rintro ⟨⟨htake, hlen, hall⟩, ⟨r, rfl⟩⟩
    match m, htake, hlen, hall with
    | a :: b :: rest, htake, hlen, hall =>
      simp only [List.take_succ_cons, List.take_zero, List.cons.injEq, and_true] at htake
      obtain ⟨rfl, rfl⟩ := htake
      simp only [List.drop_succ_cons, List.drop_zero] at hall
      refine ⟨['U'], 'C' :: rest ++ r, 'C' :: rest, ⟨by simp, rfl, by simp⟩,
        ⟨['C'], rest ++ r, rest, ⟨by simp, rfl, by simp⟩,
          ⟨rest, r, [], ⟨rfl, by simpa using hlen, ?_⟩, rfl, by simp⟩, by simp⟩, by simp⟩
      intro c hc
      exact (isWordOrHyphen_iff c).mpr (hall c hc)

theorem regexExec_eq_none (re : List Atom) (s : JsString) :
    regexExec re s = none ↔ ∀ p t, s = p ++ t → matchSeq re t = none := by
  induction s with
  | nil =>
    simp only [regexExec]
    constructor
    · intro h p t hpt
      have ht : t = [] := (List.append_eq_nil.mp hpt.symm).2
      rw [ht]; exact h
    · intro h; exact h [] [] rfl
  | cons c s ih =>
    simp only [regexExec]
    cases hm : matchSeq re (c :: s) with
    | some m =>
      simp only [reduceCtorEq, false_iff]
      intro h
      have := h [] (c :: s) rfl
      rw [hm] at this
      cases this
    | none =>
      simp only [ih]
      constructor
      · intro h p t hpt
        cases p with
        | nil => rw [← (by simpa using hpt : c :: s = t)]; exact hm
        | cons d p =>
          simp only [List.cons_append, List.cons.injEq] at hpt
          exact h p t hpt.2
      · intro h p t hpt
        exact h (c :: p) t (by simp [hpt])

theorem regexExec_eq_some (re : List Atom) (s m : JsString) (h : regexExec re s = some m) :
    ∃ p t, s = p ++ t ∧ matchSeq re t = some m ∧
      ∀ p2 t2, s = p2 ++ t2 → p2.length < p.length → matchSeq re t2 = none := by
  induction s with
  | nil =>
    simp only [regexExec] at h
    exact ⟨[], [], rfl, h, fun p2 t2 _ hlt => absurd hlt (by simp)⟩
  | cons c s ih =>
    simp only [regexExec] at h
    cases hm : matchSeq re (c :: s) with
    | some m0 =>
      rw [hm] at h
      simp only [Option.some.injEq] at h
      subst h
      exact ⟨[], c :: s, rfl, hm, fun p2 t2 _ hlt => absurd hlt (by simp)⟩
    | none =>
      rw [hm] at h
      obtain ⟨p, t, hs, hmt, hleft⟩ := ih h
      refine ⟨c :: p, t, by simp [hs], hmt, ?_⟩
      intro p2 t2 hpt hlt
      cases p2 with
      | nil => rw [← (by simpa using hpt : c :: s = t2)]; exact hm
      | cons d p2 =>
        simp only [List.cons_append, List.cons.injEq] at hpt
        exact hleft p2 t2 hpt.2 (by simpa using hlt)

theorem regexExec_channelId_eq_none (s : JsString) :
    regexExec channelIdRegex s = none ↔ ¬ ContainsChannelId s := by
  rw [regexExec_eq_none]
  constructor
  · rintro h ⟨q, hq, ⟨p, r, rfl⟩⟩
    have := h p (q ++ r) (by simp)
    rw [(matchSeq_channelIdRegex (q ++ r) q).mpr ⟨hq, ⟨r, rfl⟩⟩] at this
    cases this
  · intro h p t hpt
    cases hm : matchSeq channelIdRegex t with
    | none => rfl
    | some m =>
      exfalso
      obtain ⟨hq, ⟨r, rfl⟩⟩ := (matchSeq_channelIdRegex t m).mp hm
      exact h ⟨m, hq, ⟨p, r, by simp [hpt]⟩⟩

theorem startsWith_iff (s search : JsString) : startsWith s search = true ↔ search <+: s := by
  induction search generalizing s with
  | nil => simp [startsWith]
  | cons a search ih =>
    cases s with
    | nil => simp [startsWith]
    | cons b s =>
      simp only [startsWith, Bool.and_eq_true, beq_iff_eq, ih, List.cons_prefix_cons]

theorem includes_iff (s search : JsString) : includes s search = true ↔ search <:+: s := by
  induction s with
  | nil =>
    simp only [includes, startsWith_iff, List.prefix_nil, List.infix_nil]
  | cons c s ih =>
    simp only [includes, Bool.or_eq_true, startsWith_iff, ih, List.infix_cons_iff]

/-! ## Claims on `extractChannelId` and `isValidWebhook` -/

/-- C1: for every input string that contains a ChannelId (`UC` followed by 22
letters, digits, underscores or hyphens), `extractChannelId` returns a
substring `q` of the input of length 24 that starts with `UC`, is a ChannelId,
occurs contiguously in the input (`input = p ++ q ++ r`) and is the leftmost
such occurrence, whatever surrounds it. -/
theorem extractChannelId_returns_leftmost_channelId (input : JsString)
    (h : ContainsChannelId input) :
    ∃ p q r, extractChannelId (some input) = some q ∧ input = p ++ q ++ r ∧
      q.length = 24 ∧ ['U', 'C'] <+: q ∧ IsChannelId q ∧
      ∀ p2 q2 r2, input = p2 ++ q2 ++ r2 → IsChannelId q2 → p.length ≤ p2.length := by
  have hne : regexExec channelIdRegex input ≠ none := fun hn =>
    (regexExec_channelId_eq_none input).mp hn h
  obtain ⟨m, hm⟩ := Option.ne_none_iff_exists'.mp hne
  obtain ⟨p, t, hs, hmt, hleft⟩ := regexExec_eq_some channelIdRegex input m hm
  obtain ⟨hq, ⟨r, rfl⟩⟩ := (matchSeq_channelIdRegex t m).mp hmt
  have hex : extractChannelId (some input) = some m := by
    cases input with
    | nil =>
      exfalso
      have h1 := congrArg List.length hs
      have h2 := hq.2.1
      simp at h1
      omega
    | cons c s => simp only [extractChannelId, hm]
  refine ⟨p, m, r, hex, by simp [hs], hq.2.1, ?_, hq, ?_⟩
  · have := hq.1
    rw [← this]
    exact List.take_prefix 2 m
  · intro p2 q2 r2 hin hq2
    by_contra hlt
    have hnone := hleft p2 (q2 ++ r2) (by simp [hin]) (by omega)
    rw [(matchSeq_channelIdRegex (q2 ++ r2) q2).mpr ⟨hq2, ⟨r2, rfl⟩⟩] at hnone
    cases hnone

theorem scenario_contains :
    ContainsChannelId "https://www.youtube.com/channel/UC1234567890123456789012".toList :=
  ⟨"UC1234567890123456789012".toList, by decide,
    ⟨"https://www.youtube.com/channel/".toList, [], by decide⟩⟩

/-- Witness for C1: the channel URL of the specification's scenario. -/
theorem extractChannelId_returns_leftmost_channelId_witness :
    ContainsChannelId "https://www.youtube.com/channel/UC1234567890123456789012".toList ∧
    ∃ p q r,
      extractChannelId (some "https://www.youtube.com/channel/UC1234567890123456789012".toList)
        = some q ∧
      "https://www.youtube.com/channel/UC1234567890123456789012".toList = p ++ q ++ r ∧
      q.length = 24 ∧ ['U', 'C'] <+: q ∧ IsChannelId q ∧
      ∀ p2 q2 r2,
        "https://www.youtube.com/channel/UC1234567890123456789012".toList = p2 ++ q2 ++ r2 →
        IsChannelId q2 → p.length ≤ p2.length :=
  ⟨scenario_contains, extractChannelId_returns_leftmost_channelId _ scenario_contains⟩

/-- C9: for an input (a string or `null`) that contains no ChannelId,
`extractChannelId` returns `null` when the input is `null` or the empty string
and returns the input itself when it is a non-empty string; and, for every
input, the result is `null` if and only if the input is `null` or empty. -/
theorem extractChannelId_without_match (input : Option JsString) :
    ((∀ s, input = some s → ¬ ContainsChannelId s) →
      ((input = none ∨ input = some []) → extractChannelId input = none) ∧
      (∀ s, input = some s → s ≠ [] → extractChannelId input = some s)) ∧
    (extractChannelId input = none ↔ input = none ∨ input = some []) := by
  constructor
  · intro hno
    constructor
    · rintro (rfl | rfl) <;> rfl
    · rintro s rfl hs
      have hn := (regexExec_channelId_eq_none s).mpr (hno s rfl)
      cases s with
      | nil => exact absurd rfl hs
      | cons c s => simp only [extractChannelId, hn]
  · constructor
    · intro h
      match input, h with
      | none, _ => exact Or.inl rfl
      | some [], _ => exact Or.inr rfl
      | some (c :: s), h =>
        simp only [extractChannelId] at h
        split at h <;> cases h
    · rintro (rfl | rfl) <;> rfl

theorem short_input_no_channelId (s : JsString) (h : s.length < 24) : ¬ ContainsChannelId s := by
  rintro ⟨q, hq, hin⟩
  have := hin.length_le
  have := hq.2.1
  omega

/-- Witness for C9: the input `UCabc` contains no ChannelId and is returned
unchanged. -/
theorem extractChannelId_without_match_witness :
    (∀ s, some "UCabc".toList = some s → ¬ ContainsChannelId s) ∧
    extractChannelId (some "UCabc".toList) = some "UCabc".toList :=
  have hno : ∀ s, some "UCabc".toList = some s → ¬ ContainsChannelId s := by
    intro s hs
    cases hs
    exact short_input_no_channelId _ (by decide)
  ⟨hno, ((extractChannelId_without_match (some "UCabc".toList)).1 hno).2 _ rfl (by decide)⟩

/-- C10: `isValidWebhook(url)` is true if and only if `url` contains the
contiguous substring `discord.com/api/webhooks/`, compared case-sensitively; it
is false for the empty string. -/
theorem isValidWebhook_iff_contains (url : JsString) :
    (isValidWebhook url = true ↔ "discord.com/api/webhooks/".toList <:+: url) ∧
    (isValidWebhook url = false ↔ ¬ "discord.com/api/webhooks/".toList <:+: url) ∧
    isValidWebhook [] = false ∧
    isValidWebhook "https://DISCORD.COM/API/WEBHOOKS/1/a".toList = false := by
  have h : isValidWebhook url = true ↔ "discord.com/api/webhooks/".toList <:+: url :=
    includes_iff url webhookMarker
  refine ⟨h, ?_, by decide, by decide⟩
  rw [← h]
  simp

/-! ## Lemmas on the submit handler -/

theorem startsWith_UC_iff (cid : JsString) :
    (cid.isEmpty || !startsWith cid "UC".toList) = false ↔ ['U', 'C'] <+: cid := by
  have h := startsWith_iff cid "UC".toList
  have e : "UC".toList = ['U', 'C'] := rfl
  rw [e] at h ⊢
  constructor
  · intro hc
    simp only [Bool.or_eq_false_iff, Bool.not_eq_false_eq_eq_true] at hc
    exact h.mp hc.2
  · intro hp
    have hne : cid.isEmpty = false := by
      obtain ⟨r, rfl⟩ := hp
      rfl
    simp [hne, h.mpr hp]

theorem tryBlock_channel_null (eng : Engine) (net : Request → FetchOutcome)
    (email channelInput webhookUrl : JsString)
    (h : extractChannelId (some channelInput) = none) :
    tryBlock eng net email channelInput webhookUrl = ([], some invalidChannelMsg) := by
  simp only [tryBlock, h]

theorem tryBlock_channel_rejected (eng : Engine) (net : Request → FetchOutcome)
    (email channelInput webhookUrl cid : JsString)
    (h : extractChannelId (some channelInput) = some cid) (hp : ¬ ['U', 'C'] <+: cid) :
    tryBlock eng net email channelInput webhookUrl = ([], some invalidChannelMsg) := by
  have hc : (cid.isEmpty || !startsWith cid "UC".toList) = true := by
    cases hb : (cid.isEmpty || !startsWith cid "UC".toList) with
    | true => rfl
    | false => exact absurd ((startsWith_UC_iff cid).mp hb) hp
  simp only [tryBlock, h, hc, if_true]

theorem tryBlock_webhook_rejected (eng : Engine) (net : Request → FetchOutcome)
    (email channelInput webhookUrl cid : JsString)
    (h : extractChannelId (some channelInput) = some cid) (hp : ['U', 'C'] <+: cid)
    (hw : isValidWebhook webhookUrl = false) :
    tryBlock eng net email channelInput webhookUrl = ([], some invalidWebhookMsg) := by
  have hc := (startsWith_UC_iff cid).mpr hp
  simp only [tryBlock, h, hc, hw, Bool.not_false, Bool.false_eq_true, if_false, if_true]

theorem tryBlock_validated (eng : Engine) (net : Request → FetchOutcome)
    (email channelInput webhookUrl cid : JsString)
    (h : extractChannelId (some channelInput) = some cid) (hp : ['U', 'C'] <+: cid)
    (hw : isValidWebhook webhookUrl = true) :
    tryBlock eng net email channelInput webhookUrl =
      match net (signupRequest email cid webhookUrl) with
      | .rejected msg => ([.fetch (signupRequest email cid webhookUrl)], some msg)
      | .responded _ (.throws msg) => ([.fetch (signupRequest email cid webhookUrl)], some msg)
      | .responded status (.parsed data) =>
        if !responseOk status then
          match getDetail eng data with
          | .error msg => ([.fetch (signupRequest email cid webhookUrl)], some msg)
          | .ok detail =>
            ([.fetch (signupRequest email cid webhookUrl)], some (remoteErrorMessage eng detail))
        else
          (.fetch (signupRequest email cid webhookUrl) :: showSuccess cid, none) := by
  have hc := (startsWith_UC_iff cid).mpr hp
  simp only [tryBlock, h, hc, hw, Bool.not_true, Bool.false_eq_true, if_false]

theorem tryBlock_validated_shape (eng : Engine) (net : Request → FetchOutcome)
    (email channelInput webhookUrl cid : JsString)
    (h : extractChannelId (some channelInput) = some cid) (hp : ['U', 'C'] <+: cid)
    (hw : isValidWebhook webhookUrl = true) :
    (∃ msg, tryBlock eng net email channelInput webhookUrl =
        ([.fetch (signupRequest email cid webhookUrl)], some msg)) ∨
    tryBlock eng net email channelInput webhookUrl =
      (.fetch (signupRequest email cid webhookUrl) :: showSuccess cid, none) := by
  rw [tryBlock_validated eng net email channelInput webhookUrl cid h hp hw]
  cases net (signupRequest email cid webhookUrl) with
  | rejected msg => exact Or.inl ⟨msg, rfl⟩
  | responded status body =>
    cases body with
    | throws msg => exact Or.inl ⟨msg, rfl⟩
    | parsed data =>
      simp only
      cases responseOk status with
      | true => exact Or.inr rfl
      | false =>
        simp only [Bool.not_false, if_true]
        cases getDetail eng data with
        | error msg => exact Or.inl ⟨msg, rfl⟩
        | ok detail => exact Or.inl ⟨_, rfl⟩

theorem extract_some_cases (channelInput cid : JsString)
    (h : extractChannelId (some channelInput) = some cid) :
    IsChannelId cid ∨ (cid = channelInput ∧ ¬ ContainsChannelId channelInput) := by
  cases channelInput with
  | nil => cases h
  | cons c s =>
    simp only [extractChannelId] at h
    cases hm : regexExec channelIdRegex (c :: s) with
    | none =>
      rw [hm] at h
      simp only [Option.some.injEq] at h
      exact Or.inr ⟨h.symm, (regexExec_channelId_eq_none _).mp hm⟩
    | some m =>
      rw [hm] at h
      simp only [Option.some.injEq] at h
      subst h
      obtain ⟨p, t, -, hmt, -⟩ := regexExec_eq_some _ _ _ hm
      exact Or.inl ((matchSeq_channelIdRegex t m).mp hmt).1

/-- The three outcomes of local validation. -/
theorem validation_cases (channelInput webhookUrl : JsString) :
    (extractChannelId (some channelInput) = none ∨
      ∃ cid, extractChannelId (some channelInput) = some cid ∧ ¬ ['U', 'C'] <+: cid) ∨
    (∃ cid, extractChannelId (some channelInput) = some cid ∧ ['U', 'C'] <+: cid ∧
      isValidWebhook webhookUrl = false) ∨
    (∃ cid, extractChannelId (some channelInput) = some cid ∧ ['U', 'C'] <+: cid ∧
      isValidWebhook webhookUrl = true) := by
  cases h : extractChannelId (some channelInput) with
  | none => exact Or.inl (Or.inl rfl)
  | some cid =>
    by_cases hp : ['U', 'C'] <+: cid
    · cases hw : isValidWebhook webhookUrl with
      | false => exact Or.inr (Or.inl ⟨cid, rfl, hp, rfl⟩)
      | true => exact Or.inr (Or.inr ⟨cid, rfl, hp, rfl⟩)
    · exact Or.inl (Or.inr ⟨cid, rfl, hp⟩)

theorem invalidChannelMsg_contains : "Invalid YouTube Channel ID".toList <:+: invalidChannelMsg :=
  ⟨[], ". It must start with \"UC\".".toList, rfl⟩

theorem handler_of_validation_error (eng : Engine) (net : Request → FetchOutcome) (ui : Ui)
    (email channelInput webhookUrl msg : JsString)
    (h : tryBlock eng net email channelInput webhookUrl = ([], some msg)) :
    submitHandler eng net ui email channelInput webhookUrl =
      [.preventDefault, .setBtnLabel loadingLabel, .setBtnDisabled true, .alert msg,
        .setBtnLabel ui.btnLabel, .setBtnDisabled false] := by
  simp only [submitHandler, h, List.nil_append, List.cons_append]

theorem handler_of_remote_error (eng : Engine) (net : Request → FetchOutcome) (ui : Ui)
    (email channelInput webhookUrl msg : JsString) (req : Request)
    (h : tryBlock eng net email channelInput webhookUrl = ([.fetch req], some msg)) :
    submitHandler eng net ui email channelInput webhookUrl =
      [.preventDefault, .setBtnLabel loadingLabel, .setBtnDisabled true, .fetch req, .alert msg,
        .setBtnLabel ui.btnLabel, .setBtnDisabled false] := by
  simp only [submitHandler, h, List.nil_append, List.cons_append]

theorem handler_of_success (eng : Engine) (net : Request → FetchOutcome) (ui : Ui)
    (email channelInput webhookUrl cid : JsString) (req : Request)
    (h : tryBlock eng net email channelInput webhookUrl = (.fetch req :: showSuccess cid, none)) :
    submitHandler eng net ui email channelInput webhookUrl =
      [.preventDefault, .setBtnLabel loadingLabel, .setBtnDisabled true, .fetch req,
        .setFormDisplay "none".toList, .removeSuccessHidden, .setCommandText (commandFor cid),
        .setBtnLabel ui.btnLabel, .setBtnDisabled false] := by
  simp only [submitHandler, h, showSuccess, List.nil_append, List.cons_append]

theorem channel_rejection_trace (eng : Engine) (net : Request → FetchOutcome)
    (ui : Ui) (email channelInput webhookUrl : JsString)
    (h : extractChannelId (some channelInput) = none ∨
      ∃ cid, extractChannelId (some channelInput) = some cid ∧ ¬ ['U', 'C'] <+: cid) :
    requestsOf (submitHandler eng net ui email channelInput webhookUrl) = [] ∧
    ∃ msg, alertsOf (submitHandler eng net ui email channelInput webhookUrl) = [msg] ∧
      "Invalid YouTube Channel ID".toList <:+: msg := by
  have ht : tryBlock eng net email channelInput webhookUrl = ([], some invalidChannelMsg) := by
    rcases h with h | ⟨cid, h, hp⟩
    · exact tryBlock_channel_null eng net email channelInput webhookUrl h
    · exact tryBlock_channel_rejected eng net email channelInput webhookUrl cid h hp
  rw [handler_of_validation_error eng net ui email channelInput webhookUrl _ ht]
  exact ⟨rfl, invalidChannelMsg, rfl, invalidChannelMsg_contains⟩

/-! ## Claims on the submit handler -/

/-- C3: whenever `extractChannelId(channelInput)` is `null` or does not start
with `UC`, for every email and webhook input the handler issues no network
call and shows exactly one alert, whose message contains
`Invalid YouTube Channel ID`. -/
theorem invalid_channel_alert_no_request (eng : Engine) (net : Request → FetchOutcome) (ui : Ui)
    (email channelInput webhookUrl : JsString)
    (h : extractChannelId (some channelInput) = none ∨
      ∃ cid, extractChannelId (some channelInput) = some cid ∧ ¬ ['U', 'C'] <+: cid) :
    requestsOf (submitHandler eng net ui email channelInput webhookUrl) = [] ∧
    ∃ msg, alertsOf (submitHandler eng net ui email channelInput webhookUrl) = [msg] ∧
      "Invalid YouTube Channel ID".toList <:+: msg :=
  channel_rejection_trace eng net ui email channelInput webhookUrl h

/-- Witness for C3: the channel input `my-channel` does not start with `UC`. -/
theorem invalid_channel_alert_no_request_witness :
    (extractChannelId (some "my-channel".toList) = none ∨
      ∃ cid, extractChannelId (some "my-channel".toList) = some cid ∧ ¬ ['U', 'C'] <+: cid) ∧
    requestsOf (submitHandler engine0 (fun _ => .responded 200 (.parsed (.object []))) page0
      "a@b.com".toList "my-channel".toList "https://discord.com/api/webhooks/123/abc".toList) = [] ∧
    ∃ msg, alertsOf (submitHandler engine0 (fun _ => .responded 200 (.parsed (.object []))) page0
      "a@b.com".toList "my-channel".toList "https://discord.com/api/webhooks/123/abc".toList)
        = [msg] ∧
      "Invalid YouTube Channel ID".toList <:+: msg :=
  have h : extractChannelId (some "my-channel".toList) = none ∨
      ∃ cid, extractChannelId (some "my-channel".toList) = some cid ∧ ¬ ['U', 'C'] <+: cid :=
    Or.inr ⟨"my-channel".toList, by decide, by decide⟩
  ⟨h, invalid_channel_alert_no_request engine0 _ page0 _ _ _ h⟩

/-- Counterexample to C4 as stated: with the channel input `my-channel` and
the webhook input `https://example.com/hook` (which lacks the marker) the only
alert is the channel message; no alert contains `Invalid Discord Webhook URL`. -/
theorem webhook_alert_absent_when_channel_invalid :
    ¬ "discord.com/api/webhooks/".toList <:+: "https://example.com/hook".toList ∧
    alertsOf (submitHandler engine0 (fun _ => .responded 200 (.parsed (.object []))) page0
      "a@b.com".toList "my-channel".toList "https://example.com/hook".toList)
        = ["Invalid YouTube Channel ID. It must start with \"UC\".".toList] ∧
    ¬ ∃ msg ∈ alertsOf (submitHandler engine0 (fun _ => .responded 200 (.parsed (.object [])))
        page0 "a@b.com".toList "my-channel".toList "https://example.com/hook".toList),
      "Invalid Discord Webhook URL".toList <:+: msg := by
  refine ⟨?_, by decide, ?_⟩
  · rw [← includes_iff]; decide
  · have e : alertsOf (submitHandler engine0 (fun _ => .responded 200 (.parsed (.object [])))
        page0 "a@b.com".toList "my-channel".toList "https://example.com/hook".toList)
          = [invalidChannelMsg] := by decide
    rw [e]
    simp only [List.mem_singleton, exists_eq_left]
    rw [← includes_iff]; decide

/-- C4 (amended): whenever the webhook input lacks `discord.com/api/webhooks/`,
for every email and channel input the handler issues no network call; when the
channel input passes the channel check the single alert is
`Invalid Discord Webhook URL.`, and otherwise the single alert is the channel
message, which contains `Invalid YouTube Channel ID`. -/
theorem invalid_webhook_no_request (eng : Engine) (net : Request → FetchOutcome) (ui : Ui)
    (email channelInput webhookUrl : JsString)
    (h : ¬ "discord.com/api/webhooks/".toList <:+: webhookUrl) :
    requestsOf (submitHandler eng net ui email channelInput webhookUrl) = [] ∧
    ((∃ cid, extractChannelId (some channelInput) = some cid ∧ ['U', 'C'] <+: cid) →
      alertsOf (submitHandler eng net ui email channelInput webhookUrl)
        = ["Invalid Discord Webhook URL.".toList]) ∧
    ((¬ ∃ cid, extractChannelId (some channelInput) = some cid ∧ ['U', 'C'] <+: cid) →
      ∃ msg, alertsOf (submitHandler eng net ui email channelInput webhookUrl) = [msg] ∧
        "Invalid YouTube Channel ID".toList <:+: msg) := by
  have hw : isValidWebhook webhookUrl = false := by
    cases hb : isValidWebhook webhookUrl with
    | false => rfl
    | true => exact absurd ((includes_iff webhookUrl webhookMarker).mp hb) h
  rcases validation_cases channelInput webhookUrl with hbad | ⟨cid, hc, hp, -⟩ | ⟨cid, -, -, hok⟩
  · have h3 := channel_rejection_trace eng net ui email channelInput webhookUrl hbad
    refine ⟨h3.1, ?_, fun _ => h3.2⟩
    rintro ⟨cid, hc, hp⟩
    rcases hbad with hn | ⟨cid2, hc2, hp2⟩
    · rw [hn] at hc; cases hc
    · rw [hc2] at hc; cases hc; exact absurd hp hp2
  · have ht := tryBlock_webhook_rejected eng net email channelInput webhookUrl cid hc hp hw
    rw [handler_of_validation_error eng net ui email channelInput webhookUrl _ ht]
    exact ⟨rfl, fun _ => rfl, fun hno => absurd ⟨cid, hc, hp⟩ hno⟩
  · rw [hw] at hok; cases hok

theorem no_marker_in_example_hook :
    ¬ "discord.com/api/webhooks/".toList <:+: "https://example.com/hook".toList := by
  rw [← includes_iff]; decide

/-- Witness for C4 (amended): a valid channel ID with the webhook input
`https://example.com/hook`. -/
theorem invalid_webhook_no_request_witness :
    ¬ "discord.com/api/webhooks/".toList <:+: "https://example.com/hook".toList ∧
    requestsOf (submitHandler engine0 (fun _ => .responded 200 (.parsed (.object []))) page0
      "a@b.com".toList "UC1234567890123456789012".toList "https://example.com/hook".toList) = [] ∧
    alertsOf (submitHandler engine0 (fun _ => .responded 200 (.parsed (.object []))) page0
      "a@b.com".toList "UC1234567890123456789012".toList "https://example.com/hook".toList)
        = ["Invalid Discord Webhook URL.".toList] :=
  ⟨no_marker_in_example_hook,
    (invalid_webhook_no_request engine0 _ page0 _ _ _ no_marker_in_example_hook).1,
    (invalid_webhook_no_request engine0 _ page0 _ _ _ no_marker_in_example_hook).2.1
      ⟨"UC1234567890123456789012".toList, by decide, by decide⟩⟩

theorem requests_of_validated (eng : Engine) (net : Request → FetchOutcome) (ui : Ui)
    (email channelInput webhookUrl cid : JsString)
    (hc : extractChannelId (some channelInput) = some cid) (hp : ['U', 'C'] <+: cid)
    (hw : isValidWebhook webhookUrl = true) :
    requestsOf (submitHandler eng net ui email channelInput webhookUrl)
      = [signupRequest email cid webhookUrl] := by
  rcases tryBlock_validated_shape eng net email channelInput webhookUrl cid hc hp hw
    with ⟨msg, ht⟩ | ht
  · rw [handler_of_remote_error eng net ui email channelInput webhookUrl _ _ ht]; rfl
  · rw [handler_of_success eng net ui email channelInput webhookUrl _ _ ht]; rfl

/-- C5: for every submission that passes both local validations
(`channelId = extractChannelId(channelInput)` starts with `UC` and
`isValidWebhook(webhookInput)` is true) the handler issues exactly one request:
`POST /webhook/signup` with the single header `Content-Type: application/json`
and the body `JSON.stringify` of the fields `email` (the entered email),
`youtubeChannelUrl` (`https://www.youtube.com/channel/` followed by `channelId`)
and `discordWebhookUrl` (the entered webhook string), in that order. -/
theorem valid_submission_sends_one_request (eng : Engine) (net : Request → FetchOutcome)
    (ui : Ui) (email channelInput webhookUrl channelId : JsString)
    (hc : extractChannelId (some channelInput) = some channelId)
    (hp : ['U', 'C'] <+: channelId) (hw : isValidWebhook webhookUrl = true) :
    requestsOf (submitHandler eng net ui email channelInput webhookUrl) =
      [{ url := "/webhook/signup".toList
         method := "POST".toList
         headers := [("Content-Type".toList, "application/json".toList)]
         body := jsonStringify
           [("email".toList, email),
            ("youtubeChannelUrl".toList, "https://www.youtube.com/channel/".toList ++ channelId),
            ("discordWebhookUrl".toList, webhookUrl)] }] :=
  requests_of_validated eng net ui email channelInput webhookUrl channelId hc hp hw

/-- Witness for C5: the scenario of the specification; the body is the JSON
text the specification quotes. -/
theorem valid_submission_sends_one_request_witness :
    requestsOf (submitHandler engine0 (fun _ => .responded 200 (.parsed (.object []))) page0
      "a@b.com".toList "https://www.youtube.com/channel/UC1234567890123456789012".toList
      "https://discord.com/api/webhooks/123/abc".toList) =
      [{ url := "/webhook/signup".toList
         method := "POST".toList
         headers := [("Content-Type".toList, "application/json".toList)]
         body := jsonStringify
           [("email".toList, "a@b.com".toList),
            ("youtubeChannelUrl".toList,
              "https://www.youtube.com/channel/".toList ++ "UC1234567890123456789012".toList),
            ("discordWebhookUrl".toList, "https://discord.com/api/webhooks/123/abc".toList)] }] ∧
    jsonStringify
        [("email".toList, "a@b.com".toList),
         ("youtubeChannelUrl".toList,
           "https://www.youtube.com/channel/".toList ++ "UC1234567890123456789012".toList),
         ("discordWebhookUrl".toList, "https://discord.com/api/webhooks/123/abc".toList)] =
      ("\x7b\"email\":\"a@b.com\",\"youtubeChannelUrl\":" ++
        "\"https://www.youtube.com/channel/UC1234567890123456789012\"," ++
        "\"discordWebhookUrl\":\"https://discord.com/api/webhooks/123/abc\"\x7d").toList :=
  ⟨valid_submission_sends_one_request engine0 _ page0 _ _ _ "UC1234567890123456789012".toList
    (by decide) (by decide) (by decide), rfl⟩

/-- Counterexample to C2 as stated: the channel input `UCabc` passes the local
check, so a request is issued whose `youtubeChannelUrl` embeds `UCabc`, which
is not a ChannelId (it has 5 characters, not 24). -/
theorem request_sent_with_short_channel_id :
    requestsOf (submitHandler engine0 (fun _ => .responded 200 (.parsed (.object []))) page0
      "a@b.com".toList "UCabc".toList "https://discord.com/api/webhooks/123/abc".toList) =
      [{ url := "/webhook/signup".toList
         method := "POST".toList
         headers := [("Content-Type".toList, "application/json".toList)]
         body := ("\x7b\"email\":\"a@b.com\",\"youtubeChannelUrl\":" ++
           "\"https://www.youtube.com/channel/UCabc\"," ++
           "\"discordWebhookUrl\":\"https://discord.com/api/webhooks/123/abc\"\x7d").toList }] ∧
    ¬ IsChannelId "UCabc".toList := by
  constructor
  · decide
  · decide

/-- C2 (amended): the handler issues at most one request; when it issues one,
the channel ID embedded in `youtubeChannelUrl` is `extractChannelId(channelInput)`,
it starts with `UC`, it is either a ChannelId or the whole channel input (which
then contains no ChannelId), and `discordWebhookUrl` contains
`discord.com/api/webhooks/`. -/
theorem request_channel_starts_with_UC (eng : Engine) (net : Request → FetchOutcome) (ui : Ui)
    (email channelInput webhookUrl : JsString) :
    requestsOf (submitHandler eng net ui email channelInput webhookUrl) = [] ∨
    ∃ cid, requestsOf (submitHandler eng net ui email channelInput webhookUrl)
        = [signupRequest email cid webhookUrl] ∧
      extractChannelId (some channelInput) = some cid ∧ ['U', 'C'] <+: cid ∧
      (IsChannelId cid ∨ (cid = channelInput ∧ ¬ ContainsChannelId channelInput)) ∧
      "discord.com/api/webhooks/".toList <:+: webhookUrl := by
  rcases validation_cases channelInput webhookUrl with hbad | ⟨cid, hc, hp, hw⟩ | ⟨cid, hc, hp, hw⟩
  · exact Or.inl (channel_rejection_trace eng net ui email channelInput webhookUrl
      hbad).1
  · have ht := tryBlock_webhook_rejected eng net email channelInput webhookUrl cid hc hp hw
    rw [handler_of_validation_error eng net ui email channelInput webhookUrl _ ht]
    exact Or.inl rfl
  · exact Or.inr ⟨cid, requests_of_validated eng net ui email channelInput webhookUrl cid hc hp hw,
      hc, hp, extract_some_cases channelInput cid hc,
      (includes_iff webhookUrl webhookMarker).mp hw⟩

theorem run_append (ui : Ui) (l1 l2 : List Effect) :
    ui.run (l1 ++ l2) = (ui.run l1).run l2 := by
  simp [Ui.run, List.foldl_append]

/-- An action that leaves the submit control alone. -/
theorem run_keeps_button (ui : Ui) (l : List Effect)
    (h : ∀ e ∈ l, ∀ u : Ui, (u.apply e).btnDisabled = u.btnDisabled ∧
      (u.apply e).btnLabel = u.btnLabel) :
    (ui.run l).btnDisabled = ui.btnDisabled ∧ (ui.run l).btnLabel = ui.btnLabel := by
  induction l generalizing ui with
  | nil => exact ⟨rfl, rfl⟩
  | cons e l ih =>
    have h1 := h e (List.mem_cons_self _ _) ui
    have h2 := ih (ui.apply e) (fun x hx => h x (List.mem_cons_of_mem _ hx))
    simp only [Ui.run, List.foldl_cons] at h2 ⊢
    exact ⟨h2.1.trans h1.1, h2.2.trans h1.2⟩

/-- Every run of the handler is the loading prologue, a body that leaves the
submit control alone, and the `finally` epilogue. -/
theorem handler_shape (eng : Engine) (net : Request → FetchOutcome) (ui : Ui)
    (email channelInput webhookUrl : JsString) :
    ∃ body, submitHandler eng net ui email channelInput webhookUrl =
        [.preventDefault, .setBtnLabel loadingLabel, .setBtnDisabled true] ++ body ++
          [.setBtnLabel ui.btnLabel, .setBtnDisabled false] ∧
      ∀ e ∈ body, ∀ u : Ui, (u.apply e).btnDisabled = u.btnDisabled ∧
        (u.apply e).btnLabel = u.btnLabel := by
  have hval : ∀ msg, tryBlock eng net email channelInput webhookUrl = ([], some msg) →
      ∃ body, submitHandler eng net ui email channelInput webhookUrl =
        [.preventDefault, .setBtnLabel loadingLabel, .setBtnDisabled true] ++ body ++
          [.setBtnLabel ui.btnLabel, .setBtnDisabled false] ∧
      ∀ e ∈ body, ∀ u : Ui, (u.apply e).btnDisabled = u.btnDisabled ∧
        (u.apply e).btnLabel = u.btnLabel := by
    intro msg ht
    refine ⟨[.alert msg], ?_, ?_⟩
    · rw [handler_of_validation_error eng net ui email channelInput webhookUrl _ ht]; rfl
    · intro e he u
      simp only [List.mem_singleton] at he
      subst he
      exact ⟨rfl, rfl⟩
  rcases validation_cases channelInput webhookUrl with hbad | ⟨cid, hc, hp, hw⟩ | ⟨cid, hc, hp, hw⟩
  · rcases hbad with hn | ⟨cid, hc, hp⟩
    · exact hval _ (tryBlock_channel_null eng net email channelInput webhookUrl hn)
    · exact hval _ (tryBlock_channel_rejected eng net email channelInput webhookUrl cid hc hp)
  · exact hval _ (tryBlock_webhook_rejected eng net email channelInput webhookUrl cid hc hp hw)
  · rcases tryBlock_validated_shape eng net email channelInput webhookUrl cid hc hp hw
      with ⟨msg, ht⟩ | ht
    · refine ⟨[.fetch (signupRequest email cid webhookUrl), .alert msg], ?_, ?_⟩
      · rw [handler_of_remote_error eng net ui email channelInput webhookUrl _ _ ht]; rfl
      · intro e he u
        simp only [List.mem_cons, List.mem_singleton, List.not_mem_nil, or_false] at he
        rcases he with rfl | rfl <;> exact ⟨rfl, rfl⟩
    · refine ⟨.fetch (signupRequest email cid webhookUrl) :: showSuccess cid, ?_, ?_⟩
      · rw [handler_of_success eng net ui email channelInput webhookUrl _ _ ht]; rfl
      · intro e he u
        simp only [showSuccess, List.mem_cons, List.mem_singleton, List.not_mem_nil,
          or_false] at he
        rcases he with rfl | rfl | rfl | rfl <;> exact ⟨rfl, rfl⟩

theorem disabled_inside (ui : Ui) (body c : List Effect) (hc : c <+: body)
    (h : ∀ e ∈ body, ∀ u : Ui, (u.apply e).btnDisabled = u.btnDisabled ∧
      (u.apply e).btnLabel = u.btnLabel) :
    (ui.run ([.preventDefault, .setBtnLabel loadingLabel, .setBtnDisabled true] ++ c)).btnDisabled
      = true := by
  rw [run_append]
  have hk := run_keeps_button
    (ui.run [.preventDefault, .setBtnLabel loadingLabel, .setBtnDisabled true]) c
    (fun e he => h e (hc.subset he))
  rw [hk.1]
  rfl

theorem prefix_of_split (body tail pre post : List Effect) (x : Effect) (hx : x ∉ tail)
    (h : body ++ tail = pre ++ x :: post) : pre ++ [x] <+: body := by
  induction body generalizing pre with
  | nil =>
    exfalso
    apply hx
    simp only [List.nil_append] at h
    rw [h]
    simp
  | cons b body ih =>
    cases pre with
    | nil =>
      simp only [List.cons_append, List.nil_append, List.cons.injEq] at h
      rw [h.1]
      exact ⟨body, rfl⟩
    | cons p pre =>
      simp only [List.cons_append, List.cons.injEq] at h
      obtain ⟨r, hr⟩ := ih pre h.2
      exact ⟨r, by simp [h.1, ← hr]⟩

theorem split_at_element (head body tail pre post : List Effect) (x : Effect)
    (hh : x ∉ head) (ht : x ∉ tail) (h : head ++ body ++ tail = pre ++ x :: post) :
    ∃ c, pre = head ++ c ∧ c ++ [x] <+: body := by
  induction head generalizing pre with
  | nil =>
    simp only [List.nil_append] at h
    exact ⟨pre, rfl, prefix_of_split body tail pre post x ht h⟩
  | cons a head ih =>
    cases pre with
    | nil =>
      simp only [List.cons_append, List.nil_append, List.cons.injEq] at h
      exact absurd (h.1 ▸ List.mem_cons_self _ _) hh
    | cons p pre =>
      simp only [List.cons_append, List.cons.injEq] at h
      obtain ⟨c, hc1, hc2⟩ := ih pre (fun hm => hh (List.mem_cons_of_mem _ hm)) h.2
      exact ⟨c, by simp [h.1, hc1], hc2⟩

theorem prefix_window (head body tail pre : List Effect) (h : pre <+: head ++ body ++ tail)
    (h1 : head.length ≤ pre.length) (h2 : pre.length ≤ head.length + body.length) :
    ∃ c, pre = head ++ c ∧ c <+: body := by
  refine ⟨body.take (pre.length - head.length), ?_, List.take_prefix _ _⟩
  have hp := List.prefix_iff_eq_take.mp h
  rw [List.append_assoc, List.take_append_eq_append_take, List.take_append_eq_append_take,
    List.take_of_length_le h1] at hp
  have hz : pre.length - head.length - body.length = 0 := by omega
  rw [hz, List.take_zero, List.append_nil] at hp
  exact hp

theorem requestsOf_append (l1 l2 : List Effect) :
    requestsOf (l1 ++ l2) = requestsOf l1 ++ requestsOf l2 := by
  induction l1 with
  | nil => rfl
  | cons e l1 ih => cases e <;> simp [requestsOf, ih]

theorem alertsOf_append (l1 l2 : List Effect) :
    alertsOf (l1 ++ l2) = alertsOf l1 ++ alertsOf l2 := by
  induction l1 with
  | nil => rfl
  | cons e l1 ih => cases e <;> simp [alertsOf, ih]

/-- C8: every run of the handler, on every exit path, consists of the three
actions of the loading state (the last of which disables the submit control),
a body, and the two restoring actions of `finally`.  The control is disabled
right after the loading actions, after every action of the body and still
after the label is restored; every request and every alert of the run happens
in the body; the run ends with the control enabled and carrying the label it
had on entry.  In particular the control is disabled when `fetch` is called
and while the request is pending. -/
theorem submit_control_disabled_then_restored (eng : Engine) (net : Request → FetchOutcome)
    (ui : Ui) (email channelInput webhookUrl : JsString) :
    ∃ body,
      submitHandler eng net ui email channelInput webhookUrl =
        [.preventDefault, .setBtnLabel loadingLabel, .setBtnDisabled true] ++ body ++
          [.setBtnLabel ui.btnLabel, .setBtnDisabled false] ∧
      body ≠ [] ∧
      (∀ c, c <+: body →
        (ui.run ([.preventDefault, .setBtnLabel loadingLabel, .setBtnDisabled true] ++ c)).btnDisabled
          = true) ∧
      (ui.run ([.preventDefault, .setBtnLabel loadingLabel, .setBtnDisabled true] ++ body ++
        [.setBtnLabel ui.btnLabel])).btnDisabled = true ∧
      requestsOf (submitHandler eng net ui email channelInput webhookUrl) = requestsOf body ∧
      alertsOf (submitHandler eng net ui email channelInput webhookUrl) = alertsOf body ∧
      (ui.run (submitHandler eng net ui email channelInput webhookUrl)).btnDisabled = false ∧
      (ui.run (submitHandler eng net ui email channelInput webhookUrl)).btnLabel = ui.btnLabel ∧
      (∀ pre, pre <+: submitHandler eng net ui email channelInput webhookUrl → 3 ≤ pre.length →
        pre.length + 2 ≤ (submitHandler eng net ui email channelInput webhookUrl).length →
        (ui.run pre).btnDisabled = true) ∧
      (∀ pre req post, submitHandler eng net ui email channelInput webhookUrl
          = pre ++ .fetch req :: post →
        (ui.run pre).btnDisabled = true ∧ (ui.run (pre ++ [.fetch req])).btnDisabled = true) := by
  obtain ⟨body, hshape, hkeep⟩ := handler_shape eng net ui email channelInput webhookUrl
  have hne : body ≠ [] := by
    rintro rfl
    have hal : alertsOf (submitHandler eng net ui email channelInput webhookUrl) = [] := by
      rw [hshape]; rfl
    have hrq : requestsOf (submitHandler eng net ui email channelInput webhookUrl) = [] := by
      rw [hshape]; rfl
    rcases validation_cases channelInput webhookUrl with hbad | ⟨cid, hc, hp, hw⟩ | ⟨cid, hc, hp, hw⟩
    · obtain ⟨msg, hm, -⟩ :=
        (channel_rejection_trace eng net ui email channelInput webhookUrl hbad).2
      rw [hm] at hal
      cases hal
    · have ht := tryBlock_webhook_rejected eng net email channelInput webhookUrl cid hc hp hw
      rw [handler_of_validation_error eng net ui email channelInput webhookUrl _ ht] at hal
      simp only [alertsOf] at hal
      cases hal
    · rw [requests_of_validated eng net ui email channelInput webhookUrl cid hc hp hw] at hrq
      cases hrq
  refine ⟨body, hshape, hne, ?_, ?_, ?_, ?_, ?_⟩
  · intro c hc
    exact disabled_inside ui body c hc hkeep
  · rw [run_append, run_append]
    have hk := run_keeps_button
      (ui.run [.preventDefault, .setBtnLabel loadingLabel, .setBtnDisabled true]) body hkeep
    show ((ui.run [.preventDefault, .setBtnLabel loadingLabel, .setBtnDisabled true]).run
      body).btnDisabled = true
    rw [hk.1]
    rfl
  · rw [hshape, requestsOf_append, requestsOf_append]
    simp [requestsOf]
  · rw [hshape, alertsOf_append, alertsOf_append]
    simp [alertsOf]
  · rw [hshape]
    refine ⟨?_, ?_, ?_, ?_⟩
    · rw [run_append]; rfl
    · rw [run_append]; rfl
    · intro pre hpre h3 hlen
      simp only [List.length_append, List.length_cons, List.length_nil] at hlen
      obtain ⟨c, rfl, hc⟩ := prefix_window _ body _ pre hpre (by simpa using h3)
        (by simp only [List.length_cons, List.length_nil]; omega)
      exact disabled_inside ui body c hc hkeep
    · intro pre req post heq
      obtain ⟨c, rfl, hc⟩ := split_at_element _ body _ pre post (.fetch req)
        (by simp) (by simp) heq
      constructor
      · exact disabled_inside ui body c ((List.prefix_append c _).trans hc) hkeep
      · rw [List.append_assoc]
        exact disabled_inside ui body _ hc hkeep

theorem responseOk_iff (status : Nat) : responseOk status = true ↔ 200 ≤ status ∧ status ≤ 299 := by
  simp [responseOk]

theorem handler_on_success_response (eng : Engine) (net : Request → FetchOutcome) (ui : Ui)
    (email channelInput webhookUrl cid : JsString) (status : Nat) (data : JsValue)
    (hc : extractChannelId (some channelInput) = some cid) (hp : ['U', 'C'] <+: cid)
    (hw : isValidWebhook webhookUrl = true)
    (hnet : net (signupRequest email cid webhookUrl) = .responded status (.parsed data))
    (hok : 200 ≤ status ∧ status ≤ 299) :
    submitHandler eng net ui email channelInput webhookUrl =
      [.preventDefault, .setBtnLabel loadingLabel, .setBtnDisabled true,
        .fetch (signupRequest email cid webhookUrl),
        .setFormDisplay "none".toList, .removeSuccessHidden, .setCommandText (commandFor cid),
        .setBtnLabel ui.btnLabel, .setBtnDisabled false] := by
  apply handler_of_success
  rw [tryBlock_validated eng net email channelInput webhookUrl cid hc hp hw, hnet]
  simp only [(responseOk_iff status).mpr hok, Bool.not_true, Bool.false_eq_true, if_false]

theorem responseOk_false (status : Nat) (hfail : ¬ (200 ≤ status ∧ status ≤ 299)) :
    responseOk status = false := by
  cases hb : responseOk status with
  | false => rfl
  | true => exact absurd ((responseOk_iff status).mp hb) hfail

theorem handler_on_unparseable_response (eng : Engine) (net : Request → FetchOutcome) (ui : Ui)
    (email channelInput webhookUrl cid msg : JsString) (status : Nat)
    (hc : extractChannelId (some channelInput) = some cid) (hp : ['U', 'C'] <+: cid)
    (hw : isValidWebhook webhookUrl = true)
    (hnet : net (signupRequest email cid webhookUrl) = .responded status (.throws msg)) :
    submitHandler eng net ui email channelInput webhookUrl =
      [.preventDefault, .setBtnLabel loadingLabel, .setBtnDisabled true,
        .fetch (signupRequest email cid webhookUrl), .alert msg,
        .setBtnLabel ui.btnLabel, .setBtnDisabled false] := by
  apply handler_of_remote_error
  rw [tryBlock_validated eng net email channelInput webhookUrl cid hc hp hw, hnet]

theorem handler_on_failure_response (eng : Engine) (net : Request → FetchOutcome) (ui : Ui)
    (email channelInput webhookUrl cid : JsString) (status : Nat) (data : JsValue)
    (hc : extractChannelId (some channelInput) = some cid) (hp : ['U', 'C'] <+: cid)
    (hw : isValidWebhook webhookUrl = true)
    (hnet : net (signupRequest email cid webhookUrl) = .responded status (.parsed data))
    (hfail : ¬ (200 ≤ status ∧ status ≤ 299)) :
    submitHandler eng net ui email channelInput webhookUrl =
      [.preventDefault, .setBtnLabel loadingLabel, .setBtnDisabled true,
        .fetch (signupRequest email cid webhookUrl),
        .alert (match getDetail eng data with
          | .error msg => msg
          | .ok detail => remoteErrorMessage eng detail),
        .setBtnLabel ui.btnLabel, .setBtnDisabled false] := by
  apply handler_of_remote_error
  rw [tryBlock_validated eng net email channelInput webhookUrl cid hc hp hw, hnet]
  simp only [responseOk_false status hfail, Bool.not_false, if_true]
  cases getDetail eng data <;> rfl

/-- Counterexample to C6 as stated: the endpoint answers HTTP 200 with an empty
body, `response.json()` throws, and the handler alerts the parse error and
leaves the form visible and the success view hidden. -/
theorem success_status_with_unparseable_body_alerts :
    responseOk 200 = true ∧
    alertsOf (submitHandler engine0
      (fun _ => .responded 200 (.throws "Unexpected end of JSON input".toList)) page0
      "a@b.com".toList "https://www.youtube.com/channel/UC1234567890123456789012".toList
      "https://discord.com/api/webhooks/123/abc".toList)
        = ["Unexpected end of JSON input".toList] ∧
    (page0.run (submitHandler engine0
      (fun _ => .responded 200 (.throws "Unexpected end of JSON input".toList)) page0
      "a@b.com".toList "https://www.youtube.com/channel/UC1234567890123456789012".toList
      "https://discord.com/api/webhooks/123/abc".toList)).formDisplay = "block".toList ∧
    (page0.run (submitHandler engine0
      (fun _ => .responded 200 (.throws "Unexpected end of JSON input".toList)) page0
      "a@b.com".toList "https://www.youtube.com/channel/UC1234567890123456789012".toList
      "https://discord.com/api/webhooks/123/abc".toList)).successHidden = true ∧
    (page0.run (submitHandler engine0
      (fun _ => .responded 200 (.throws "Unexpected end of JSON input".toList)) page0
      "a@b.com".toList "https://www.youtube.com/channel/UC1234567890123456789012".toList
      "https://discord.com/api/webhooks/123/abc".toList)).commandText = [] := by
  refine ⟨by decide, by decide, by decide, by decide, by decide⟩

/-- C6 (amended): for every submission that passes both local validations and
for which the endpoint responds with an HTTP success status (200-299) and a
body that parses as JSON (to any value), the handler shows no alert, hides the
form, reveals the success view and sets the command text to
`$(urlfetch https://clipdash.in/webhook/clip?channel_id=` followed by
`extractChannelId(channelInput)` and `&user=$(user)&message=$(querystring))`. -/
theorem success_renders_command (eng : Engine) (net : Request → FetchOutcome) (ui : Ui)
    (email channelInput webhookUrl channelId : JsString) (status : Nat) (data : JsValue)
    (hc : extractChannelId (some channelInput) = some channelId)
    (hp : ['U', 'C'] <+: channelId) (hw : isValidWebhook webhookUrl = true)
    (hnet : net (signupRequest email channelId webhookUrl) = .responded status (.parsed data))
    (hok : 200 ≤ status ∧ status ≤ 299) :
    alertsOf (submitHandler eng net ui email channelInput webhookUrl) = [] ∧
    (ui.run (submitHandler eng net ui email channelInput webhookUrl)).formDisplay
      = "none".toList ∧
    (ui.run (submitHandler eng net ui email channelInput webhookUrl)).successHidden = false ∧
    (ui.run (submitHandler eng net ui email channelInput webhookUrl)).commandText =
      "$(urlfetch https://clipdash.in/webhook/clip?channel_id=".toList ++ channelId ++
        "&user=$(user)&message=$(querystring))".toList := by
  rw [handler_on_success_response eng net ui email channelInput webhookUrl channelId status data
    hc hp hw hnet hok]
  exact ⟨rfl, rfl, rfl, rfl⟩

/-- Witness for C6 (amended): the scenario of the specification with an HTTP 200
response whose body is the JSON object without members; the rendered command
is the one the specification quotes. -/
theorem success_renders_command_witness :
    (page0.run (submitHandler engine0 (fun _ => .responded 200 (.parsed (.object []))) page0
      "a@b.com".toList "https://www.youtube.com/channel/UC1234567890123456789012".toList
      "https://discord.com/api/webhooks/123/abc".toList)).commandText =
      ("$(urlfetch https://clipdash.in/webhook/clip?channel_id=UC1234567890123456789012" ++
        "&user=$(user)&message=$(querystring))").toList :=
  (success_renders_command engine0 (fun _ => .responded 200 (.parsed (.object []))) page0
    "a@b.com".toList "https://www.youtube.com/channel/UC1234567890123456789012".toList
    "https://discord.com/api/webhooks/123/abc".toList "UC1234567890123456789012".toList
    200 (.object []) (by decide) (by decide) (by decide) rfl (by decide)).2.2.2.trans rfl

/-- Counterexample to C7 as stated: (1) the endpoint answers HTTP 500 with an
empty body, `response.json()` throws before the status is looked at, and the
alert is the parse error, not `Connection failed.`; (2) the endpoint answers
HTTP 400 with a body whose `detail` field is present and is the empty string,
and the alert is `Connection failed.`, not the value of `detail`. -/
theorem failure_alert_is_not_always_detail_or_fallback :
    responseOk 500 = false ∧
    alertsOf (submitHandler engine0
      (fun _ => .responded 500 (.throws "Unexpected end of JSON input".toList)) page0
      "a@b.com".toList "https://www.youtube.com/channel/UC1234567890123456789012".toList
      "https://discord.com/api/webhooks/123/abc".toList)
        = ["Unexpected end of JSON input".toList] ∧
    "Unexpected end of JSON input".toList ≠ "Connection failed.".toList ∧
    responseOk 400 = false ∧
    alertsOf (submitHandler engine0
      (fun _ => .responded 400 (.parsed (.object [("detail".toList, .string [])]))) page0
      "a@b.com".toList "https://www.youtube.com/channel/UC1234567890123456789012".toList
      "https://discord.com/api/webhooks/123/abc".toList)
        = ["Connection failed.".toList] ∧
    ([] : JsString) ≠ "Connection failed.".toList := by
  refine ⟨by decide, by decide, by decide, by decide, by decide, by decide⟩

/-- C7 (amended): for every submission that passes both local validations and
for which the endpoint responds with a failure HTTP status (outside 200-299),
the success view is not shown (form, success panel and command text are left
as they were) and exactly one alert is shown.  When the body parses as a JSON
object, the alert is the value of `detail` if that is a non-empty string, and
`Connection failed.` if `detail` is absent or falsy; when the body parses as a
value that is neither an object nor `null`, the alert is `Connection failed.`. -/
theorem failure_response_alert (eng : Engine) (net : Request → FetchOutcome) (ui : Ui)
    (email channelInput webhookUrl channelId : JsString) (status : Nat) (body : BodyOutcome)
    (hc : extractChannelId (some channelInput) = some channelId)
    (hp : ['U', 'C'] <+: channelId) (hw : isValidWebhook webhookUrl = true)
    (hnet : net (signupRequest email channelId webhookUrl) = .responded status body)
    (hfail : ¬ (200 ≤ status ∧ status ≤ 299)) :
    (ui.run (submitHandler eng net ui email channelInput webhookUrl)).formDisplay
      = ui.formDisplay ∧
    (ui.run (submitHandler eng net ui email channelInput webhookUrl)).successHidden
      = ui.successHidden ∧
    (ui.run (submitHandler eng net ui email channelInput webhookUrl)).commandText
      = ui.commandText ∧
    (∃ msg, alertsOf (submitHandler eng net ui email channelInput webhookUrl) = [msg]) ∧
    (∀ props s, body = .parsed (.object props) →
      props.lookup "detail".toList = some (.string s) → s ≠ [] →
      alertsOf (submitHandler eng net ui email channelInput webhookUrl) = [s]) ∧
    (∀ props, body = .parsed (.object props) → props.lookup "detail".toList = none →
      alertsOf (submitHandler eng net ui email channelInput webhookUrl)
        = ["Connection failed.".toList]) ∧
    (∀ props v, body = .parsed (.object props) → props.lookup "detail".toList = some v →
      v.truthy = false →
      alertsOf (submitHandler eng net ui email channelInput webhookUrl)
        = ["Connection failed.".toList]) ∧
    (∀ data, body = .parsed data → data ≠ .null → (∀ props, data ≠ .object props) →
      alertsOf (submitHandler eng net ui email channelInput webhookUrl)
        = ["Connection failed.".toList]) := by
  cases body with
  | throws msg =>
    rw [handler_on_unparseable_response eng net ui email channelInput webhookUrl channelId msg
      status hc hp hw hnet]
    refine ⟨rfl, rfl, rfl, ⟨msg, rfl⟩, ?_, ?_, ?_, ?_⟩
    · intro props s h; cases h
    · intro props h; cases h
    · intro props v h; cases h
    · intro data h; cases h
  | parsed data =>
    rw [handler_on_failure_response eng net ui email channelInput webhookUrl channelId status
      data hc hp hw hnet hfail]
    refine ⟨rfl, rfl, rfl, ⟨_, rfl⟩, ?_, ?_, ?_, ?_⟩
    · intro props s h hl hs
      cases h
      have hne : s.isEmpty = false := by
        cases s with
        | nil => exact absurd rfl hs
        | cons a s => rfl
      simp only [alertsOf, getDetail, hl, remoteErrorMessage, JsValue.truthy, Engine.toJsString,
        hne, Bool.not_false, if_true]
    · intro props h hl
      cases h
      simp only [alertsOf, getDetail, hl, remoteErrorMessage]
    · intro props v h hl hv
      cases h
      simp only [alertsOf, getDetail, hl, remoteErrorMessage, hv, Bool.false_eq_true, if_false]
    · intro d h hnn hno
      cases h
      cases data with
      | null => exact absurd rfl hnn
      | object props => exact absurd rfl (hno props)
      | bool b => simp only [alertsOf, getDetail, remoteErrorMessage]
      | number n => simp only [alertsOf, getDetail, remoteErrorMessage]
      | string t => simp only [alertsOf, getDetail, remoteErrorMessage]
      | array items => simp only [alertsOf, getDetail, remoteErrorMessage]

/-- Witness for C7 (amended): HTTP 400 with body `{"detail":"already registered"}`
alerts `already registered`. -/
theorem failure_response_alert_witness :
    alertsOf (submitHandler engine0
      (fun _ => .responded 400
        (.parsed (.object [("detail".toList, .string "already registered".toList)]))) page0
      "a@b.com".toList "https://www.youtube.com/channel/UC1234567890123456789012".toList
      "https://discord.com/api/webhooks/123/abc".toList)
        = ["already registered".toList] :=
  (failure_response_alert engine0
    (fun _ => .responded 400
      (.parsed (.object [("detail".toList, .string "already registered".toList)]))) page0
    "a@b.com".toList "https://www.youtube.com/channel/UC1234567890123456789012".toList
    "https://discord.com/api/webhooks/123/abc".toList "UC1234567890123456789012".toList
    400 _ (by decide) (by decide) (by decide) rfl (by decide)).2.2.2.2.1
      [("detail".toList, .string "already registered".toList)] "already registered".toList
      rfl rfl (by decide)

end ClipDash
